import Mathlib

/-!
Shallow embedding of `src/main.py` (interactive groundwater level finder).

The script loads a CSV into a dataframe (`load_data`), and, when the user
draws a polygon, computes the polygon centroid with shapely, scans every
dataframe row for the nearest station by haversine distance with a strict
`<` minimum-tracking loop, filters the nearest station's rows, sorts them
by date, drops administrative columns, and aggregates duplicate dates by
mean for plotting.  Any exception in that block is caught and surfaced as
the string `Error reading polygon: {e}`.

Numeric values are modelled as exact rationals (the Python code uses
floats).  The haversine metric itself and the shapely geometry engine are
external libraries (not part of this repository); the scan and the handler
are parametrised over the distance function, and the centroid is modelled
from the spec's area-weighted 2D centroid formula.
-/

namespace GWL

/-- A calendar date, as produced by `pd.to_datetime` (year/month/day). -/
structure Date where
  y : Int
  m : Int
  d : Int
deriving DecidableEq

/-- Lexicographic order on dates, mirroring chronological comparison. -/
def Date.leb (a b : Date) : Bool :=
  decide (a.y < b.y) ||
    (decide (a.y = b.y) &&
      (decide (a.m < b.m) || (decide (a.m = b.m) && decide (a.d ≤ b.d))))

/-- One dataframe row after `load_data`: the CSV columns
`id, date, latitude, longitude, station_name, district_name, state_name,
currentlevel, source` plus the derived `year` column.  `date` is the
result of `pd.to_datetime(..., errors="coerce")`: `none` models `NaT`
(an unparseable raw date); `currentlevel` is `none` for a null reading. -/
structure Row where
  id : Int
  date : Option Date
  latitude : ℚ
  longitude : ℚ
  station_name : String
  district_name : String
  state_name : String
  currentlevel : Option ℚ
  source : String
  year : Option Int
deriving DecidableEq

/-- The `(latitude, longitude)` pair of a row (station identity). -/
def Row.coord (r : Row) : ℚ × ℚ :=
  (r.latitude, r.longitude)

/-- The function `load_data` (src/main.py lines 12-16):
`pd.to_datetime(df["date"], errors="coerce")` replaces an unparseable date
by `NaT` and keeps the row; `df["year"] = df["date"].dt.year` derives the
year column (`NaT` gives a null year).  No row is dropped. -/
def load_data (rows : List Row) : List Row :=
  rows.map fun r => { r with year := r.date.map Date.y }

/-- One step of the nearest-station loop (src/main.py lines 80-84):
`if dist < min_dist: min_dist = dist; nearest_row = row`.  The accumulator
`none` models the initial state `min_dist = inf, nearest_row = None`;
every (finite) distance is below `inf`, so the first row always enters. -/
def scanStep (f : α → ℚ) (acc : Option (α × ℚ)) (a : α) : Option (α × ℚ) :=
  match acc with
  | none => some (a, f a)
  | some (b, m) => if f a < m then some (a, f a) else some (b, m)

/-- The minimum-tracking loop `for _, row in df.iterrows(): ...`
(src/main.py lines 78-84), generic in the per-element distance `f`. -/
def scanMin (f : α → ℚ) (l : List α) : Option (α × ℚ) :=
  l.foldl (scanStep f) none

/-- Right-recursive characterisation of the loop: keep the earlier element
on ties (`≤`).  Proved equal to `scanMin` below. -/
def bestAux (f : α → ℚ) : List α → Option (α × ℚ)
  | [] => none
  | a :: t =>
    match bestAux f t with
    | none => some (a, f a)
    | some (b, m) => if f a ≤ m then some (a, f a) else some (b, m)

/-- Combine a partial scan result with an earlier candidate holding the
strict minimum so far (proof infrastructure for the loop equations). -/
def mergeBest (o : Option (α × ℚ)) (b : α) (m : ℚ) : α × ℚ :=
  match o with
  | none => (b, m)
  | some (c, k) => if k < m then (c, k) else (b, m)

/-- The nearest-station scan (src/main.py lines 78-84): iterate over every
dataframe row, computing `dist(centroid, (row.latitude, row.longitude))`
and tracking the strict minimum.  `dist` stands for the external
`haversine` library function; all theorems below hold for every `dist`,
hence in particular for haversine. -/
def nearestScan (dist : ℚ × ℚ → ℚ × ℚ → ℚ) (centroid : ℚ × ℚ)
    (df : List Row) : Option (Row × ℚ) :=
  scanMin (fun row => dist centroid row.coord) df

/-- First-occurrence deduplication: each value keeps its first position,
later duplicates are removed.  (Used only on the specification side of the
refinement claim about scanning unique coordinates.) -/
def dedupFirst [DecidableEq β] : List β → List β
  | [] => []
  | a :: t => a :: (dedupFirst t).filter fun b => decide (b ≠ a)

/-- Specification-side scan from the claim's words: visit each unique
`(latitude, longitude)` coordinate exactly once, in first-occurrence
order, with the same strict `<` minimum-tracking loop. -/
def uniqueScan (dist : ℚ × ℚ → ℚ × ℚ → ℚ) (centroid : ℚ × ℚ)
    (df : List Row) : Option ((ℚ × ℚ) × ℚ) :=
  scanMin (fun c => dist centroid c) (dedupFirst (df.map Row.coord))

/-! ### Polygon centroid (lines 74-75)

The polygon itself is built by shapely (`shape(...)`, an external library):
its native axes are `x = longitude`, `y = latitude`, and GeoJSON rings list
vertices as `(lon, lat)` pairs.  The centroid is modelled from the spec:
the standard area-weighted 2D centroid formula
`C = (1/(6A)) * sum (v_i + v_{i+1}) * cross(v_i, v_{i+1})` with
`A = (1/2) * sum cross(v_i, v_{i+1})` over the closing edge cycle. -/

/-- Rotate a list by one position (used to pair each vertex with its
successor, the last vertex closing back to the first). -/
def rot1 : List α → List α
  | [] => []
  | a :: t => t ++ [a]

/-- The edge cycle of a polygon given by its vertex list. -/
def edges (l : List (ℚ × ℚ)) : List ((ℚ × ℚ) × (ℚ × ℚ)) :=
  l.zip (rot1 l)

/-- Cross product of two vertices, the per-edge factor of the shoelace
formula. -/
def cross (p q : ℚ × ℚ) : ℚ :=
  p.1 * q.2 - q.1 * p.2

/-- Sum of a per-edge weight over the polygon's edge cycle. -/
def edgeSum (w : ℚ × ℚ → ℚ × ℚ → ℚ) (l : List (ℚ × ℚ)) : ℚ :=
  ((edges l).map fun e => w e.1 e.2).sum

/-- Twice the signed area of the polygon (shoelace formula). -/
def area2 (l : List (ℚ × ℚ)) : ℚ :=
  edgeSum cross l

/-- Numerator sum for the x-coordinate of the centroid. -/
def centroidNumX (l : List (ℚ × ℚ)) : ℚ :=
  edgeSum (fun p q => (p.1 + q.1) * cross p q) l

/-- Numerator sum for the y-coordinate of the centroid. -/
def centroidNumY (l : List (ℚ × ℚ)) : ℚ :=
  edgeSum (fun p q => (p.2 + q.2) * cross p q) l

/-- Modelled from the spec: the external geometry library's polygon
centroid — the area-weighted standard 2D centroid on the `(x, y)` plane
(`6A = 3 * area2`). -/
def centroidXY (l : List (ℚ × ℚ)) : ℚ × ℚ :=
  (centroidNumX l / (3 * area2 l), centroidNumY l / (3 * area2 l))

/-- Stand-in for the external geometry library's failure message when a
ring has fewer than 3 points; the exact text is the library's own, but the
catch-all handler at line 129 prepends its prefix to whatever it is. -/
def fewPointsMsg : String :=
  "polygon construction failed: fewer than 3 coordinates"

/-- Modelled from the spec: polygon construction (`shape(...)`,
src/main.py line 74, delegated to the external shapely library) requires
at least 3 points; fewer fails with a construction error carrying the
library's own message.  On success the polygon's centroid is available in
the library's native `(x = lon, y = lat)` axes. -/
def shapeCentroid (coords : List (ℚ × ℚ)) : Except String (ℚ × ℚ) :=
  if coords.length < 3 then Except.error fewPointsMsg
  else Except.ok (centroidXY coords)

/-- Line 75: `centroid = (geom.centroid.y, geom.centroid.x)` — the single
axis swap from the library's `(x = lon, y = lat)` to `(lat, lon)`, applied
to the centroid of the polygon whose vertices are the GeoJSON `(lon, lat)`
pairs. -/
def referencePoint (lonlat : List (ℚ × ℚ)) : ℚ × ℚ :=
  ((centroidXY lonlat).2, (centroidXY lonlat).1)

/-- The claim's words: the area-weighted centroid of the same polygon,
computed directly on vertices written in `(latitude, longitude)` order, so
that its result is natively a `(latitude, longitude)` pair. -/
def specReferencePoint (lonlat : List (ℚ × ℚ)) : ℚ × ℚ :=
  centroidXY (lonlat.map Prod.swap)

/-! ### Series extraction (lines 94-105) -/

/-- A station-data row after
`drop(columns=["id", "latitude", "longitude", "source", "year"])`
(line 98): only `date`, the three name columns and `currentlevel`
remain. -/
structure StationRow where
  date : Option Date
  station_name : String
  district_name : String
  state_name : String
  currentlevel : Option ℚ
deriving DecidableEq

/-- Column projection performed by the `drop(columns=...)` call. -/
def Row.toStationRow (r : Row) : StationRow :=
  ⟨r.date, r.station_name, r.district_name, r.state_name, r.currentlevel⟩

/-- Date comparison used for `sort_values("date")`: `NaT` sorts last
(pandas `na_position="last"`). -/
def optDateLeb : Option Date → Option Date → Bool
  | none, none => true
  | none, some _ => false
  | some _, none => true
  | some a, some b => a.leb b

/-- Ordered insertion for the date sort. -/
def insertByDate (r : Row) : List Row → List Row
  | [] => [r]
  | x :: xs => if optDateLeb r.date x.date then r :: x :: xs else x :: insertByDate r xs

/-- Model of `sort_values("date")` (line 97): a sort of the rows by date
with `NaT` last.  pandas' default algorithm (`kind="quicksort"`) promises
only the ordering by date — not the relative order of rows with equal
dates — and no theorem in this file depends on the order of ties. -/
def sortByDate : List Row → List Row
  | [] => []
  | r :: rs => insertByDate r (sortByDate rs)

/-- Lines 94-98: select the rows whose `(latitude, longitude)` equal the
nearest row's coordinates, sort them by date, and drop the administrative
columns.  `csv_data` (line 102) is a copy of this same frame. -/
def station_data (df : List Row) (nr : Row) : List StationRow :=
  (sortByDate (df.filter fun r =>
    decide (r.latitude = nr.latitude) && decide (r.longitude = nr.longitude))).map
    Row.toStationRow

/-- Ordered insertion for the group-key sort. -/
def insertDate (d : Date) : List Date → List Date
  | [] => [d]
  | x :: xs => if d.leb x then d :: x :: xs else x :: insertDate d xs

/-- Ascending sort of the group keys (pandas `groupby` sorts its keys by
default). -/
def sortDates : List Date → List Date
  | [] => []
  | d :: ds => insertDate d (sortDates ds)

/-- The level values recorded for date `d` in a station frame. -/
def levelsAt (rows : List StationRow) (d : Date) : List (Option ℚ) :=
  (rows.filter fun r => decide (r.date = some d)).map StationRow.currentlevel

/-- Group reduction of pandas `agg({"currentlevel": "mean"})`: the
arithmetic mean over the non-null values, and null when every value of the
group is null (`mean` skips NaN). -/
def meanOpt (ls : List (Option ℚ)) : Option ℚ :=
  if ls.filterMap id = [] then none
  else some ((ls.filterMap id).sum / ((ls.filterMap id).length : ℚ))

/-- Line 105: `groupby("date", as_index=False).agg({"currentlevel":
"mean"})` — group keys are the distinct non-null dates (pandas `groupby`
drops `NaT` keys by default), sorted ascending, each mapped to the mean of
its group's non-null levels. -/
def plot_data (rows : List StationRow) : List (Date × Option ℚ) :=
  (sortDates (dedupFirst (rows.filterMap StationRow.date))).map fun d =>
    (d, meanOpt (levelsAt rows d))

/-! ### Column tracking

The same pipeline at the level of column names, to state which columns the
outputs carry. -/

/-- Modelled from the spec: the CSV file (`Indian_GWL_Data.csv`) is not in
the repository; its column set is the spec's section 6 list. -/
def datasetColumns : List String :=
  ["id", "date", "latitude", "longitude", "station_name", "district_name",
   "state_name", "currentlevel", "source"]

/-- Columns after `load_data` adds the derived `year` (line 15). -/
def loadedColumns : List String :=
  datasetColumns ++ ["year"]

/-- The columns removed at line 98. -/
def droppedColumns : List String :=
  ["id", "latitude", "longitude", "source", "year"]

/-- Columns of `station_data` (and of its copy `csv_data`): everything not
dropped at line 98. -/
def stationDataColumns : List String :=
  loadedColumns.filter fun c => decide (c ∉ droppedColumns)

/-- Columns of the frame saved for CSV download (line 102). -/
def csvDataColumns : List String :=
  stationDataColumns

/-- Columns of a `groupby(key, as_index=False).agg(aggs)` result: the key
followed by the aggregated columns. -/
def groupbyAggColumns (key : String) (aggs : List String) : List String :=
  key :: aggs

/-- Columns of `plot_data` (line 105). -/
def plotDataColumns : List String :=
  groupbyAggColumns "date" ["currentlevel"]

/-! ### The drawing handler (lines 72-130) -/

/-- The successful outcome of the drawing branch: the success banner's
fields (lines 87-91, distance kept at full precision here; the banner
formats it to 2 decimals), the CSV frame and the plot frame. -/
structure QueryOk where
  station_name : String
  district_name : String
  state_name : String
  distance_km : ℚ
  csv_data : List StationRow
  plot : List (Date × Option ℚ)
deriving DecidableEq

/-- The prefix of every error the handler surfaces: line 130 formats any
caught exception as `f"Error reading polygon: {e}"`. -/
def pyErrorTag : String :=
  "Error reading polygon: "

/-- Modelled from Python semantics: when the scan selected no row
(`nearest_row is None`), line 95 subscripts `None`, raising a `TypeError`
with this message, which the handler at line 129 catches. -/
def noneTypeMsg : String :=
  "NoneType object is not subscriptable"

/-- The drawing branch (lines 72-130): build the polygon and its centroid,
swap axes, scan for the nearest row, then filter/sort/drop and aggregate
that station's rows; every exception is caught and surfaced as the string
`Error reading polygon: {e}`.  There is no `ValidationError`,
`NotFoundError` or `DataIntegrityError` anywhere in the source. -/
def handleDrawing (dist : ℚ × ℚ → ℚ × ℚ → ℚ) (df : List Row)
    (coords : List (ℚ × ℚ)) : Except String QueryOk :=
  match shapeCentroid coords with
  | Except.error e => Except.error (pyErrorTag ++ e)
  | Except.ok cxy =>
    match nearestScan dist (cxy.2, cxy.1) df with
    | none => Except.error (pyErrorTag ++ noneTypeMsg)
    | some (nr, m) =>
      Except.ok
        { station_name := nr.station_name
          district_name := nr.district_name
          state_name := nr.state_name
          distance_km := m
          csv_data := station_data df nr
          plot := plot_data (station_data df nr) }

/-! ### Concrete inputs for witnesses and counterexamples -/

/-- A concrete computable stand-in distance function (squared Euclidean on
the rational plane), used only to instantiate theorems that hold for every
distance function. -/
def distSq (p q : ℚ × ℚ) : ℚ :=
  (p.1 - q.1) * (p.1 - q.1) + (p.2 - q.2) * (p.2 - q.2)

/-- Helper to build concrete rows. -/
def mkRow (i : Int) (dt : Option Date) (la lo : ℚ) (nm : String)
    (lv : Option ℚ) : Row :=
  { id := i, date := dt, latitude := la, longitude := lo, station_name := nm,
    district_name := "D", state_name := "S", currentlevel := lv,
    source := "cgwb", year := none }

/-- A raw row whose date failed to parse (`NaT`). -/
def badDateRow : Row :=
  mkRow 1 none 10 20 "A" (some 1)

/-- A small concrete catalog. -/
def sampleDf : List Row :=
  [mkRow 1 (some ⟨2020, 1, 1⟩) 10 20 "A" (some 3),
   mkRow 2 (some ⟨2020, 1, 2⟩) 12 25 "C" (some 5)]

/-- First of two stations at exactly equal distance from `(10, 21)`. -/
def tieRowA : Row :=
  mkRow 1 none 10 20 "A" none

/-- Second of two stations at exactly equal distance from `(10, 21)`. -/
def tieRowB : Row :=
  mkRow 2 none 10 22 "B" none

/-- A catalog with an exact distance tie. -/
def tieDf : List Row :=
  [tieRowA, tieRowB]

/-- The date 2020-01-01 of the spec's aggregation example. -/
def specD1 : Date :=
  ⟨2020, 1, 1⟩

/-- The date 2020-01-02 of the spec's aggregation example. -/
def specD2 : Date :=
  ⟨2020, 1, 2⟩

/-- The spec's aggregation example: levels `[3.0, 5.0]` on 2020-01-01 and
a single null level on 2020-01-02. -/
def specRows : List StationRow :=
  [⟨some specD1, "A", "D", "S", some 3⟩,
   ⟨some specD1, "A", "D", "S", some 5⟩,
   ⟨some specD2, "A", "D", "S", none⟩]

/-! ### Theory of the minimum-tracking loop -/

theorem bestAux_eq_none_iff (f : α → ℚ) {l : List α} :
    bestAux f l = none ↔ l = [] := by
  cases l with
  | nil => simp [bestAux]
  | cons a t =>
    simp only [bestAux]
    cases hbt : bestAux f t with
    | none => simp
    | some ck =>
      obtain ⟨c, k⟩ := ck
      by_cases h2 : f a ≤ k <;> simp [h2]

theorem foldl_scanStep (f : α → ℚ) (l : List α) (b : α) (m : ℚ) :
    l.foldl (scanStep f) (some (b, m)) = some (mergeBest (bestAux f l) b m) := by
  induction l generalizing b m with
  | nil => rfl
  | cons a t ih =>
    rw [List.foldl_cons]
    cases hbt : bestAux f t with
    | none =>
      have ht : t = [] := (bestAux_eq_none_iff f).mp hbt
      subst ht
      simp only [List.foldl_nil, scanStep, bestAux, mergeBest]
      split_ifs <;> rfl
    | some ck =>
      obtain ⟨c, k⟩ := ck
      by_cases h1 : f a < m
      · rw [show scanStep f (some (b, m)) a = some (a, f a) from by
          simp [scanStep, h1], ih a (f a)]
        simp only [bestAux, hbt, mergeBest]
        by_cases h2 : f a ≤ k
        · rw [if_pos h2]
          simp only [mergeBest]
          rw [if_neg (not_lt.mpr h2), if_pos h1]
        · rw [if_neg h2]
          simp only [mergeBest]
          rw [if_pos (not_le.mp h2), if_pos (lt_trans (not_le.mp h2) h1)]
      · rw [show scanStep f (some (b, m)) a = some (b, m) from by
          simp [scanStep, h1], ih b m]
        simp only [bestAux, hbt, mergeBest]
        by_cases h2 : f a ≤ k
        · rw [if_pos h2]
          simp only [mergeBest]
          rw [if_neg h1, if_neg (not_lt.mpr (le_trans (not_lt.mp h1) h2))]
        · rw [if_neg h2]

theorem scanMin_eq_bestAux (f : α → ℚ) (l : List α) :
    scanMin f l = bestAux f l := by
  cases l with
  | nil => rfl
  | cons a t =>
    show (a :: t).foldl (scanStep f) none = _
    rw [List.foldl_cons, show scanStep f none a = some (a, f a) from rfl,
      foldl_scanStep f t a (f a)]
    cases hbt : bestAux f t with
    | none =>
      have ht : t = [] := (bestAux_eq_none_iff f).mp hbt
      subst ht
      rfl
    | some ck =>
      obtain ⟨c, k⟩ := ck
      simp only [bestAux, hbt, mergeBest]
      by_cases h2 : f a ≤ k
      · rw [if_neg (not_lt.mpr h2), if_pos h2]
      · rw [if_pos (not_le.mp h2), if_neg h2]

theorem bestAux_isMin (f : α → ℚ) {l : List α} {r : α} {m : ℚ}
    (h : bestAux f l = some (r, m)) :
    f r = m ∧ r ∈ l ∧ ∀ x ∈ l, m ≤ f x := by
  induction l generalizing r m with
  | nil => simp [bestAux] at h
  | cons a t ih =>
    cases hbt : bestAux f t with
    | none =>
      have ht : t = [] := (bestAux_eq_none_iff f).mp hbt
      subst ht
      simp only [bestAux, Option.some.injEq, Prod.mk.injEq] at h
      obtain ⟨rfl, rfl⟩ := h
      refine ⟨rfl, List.mem_singleton_self a, ?_⟩
      intro x hx
      exact le_of_eq (congrArg f (List.mem_singleton.mp hx)).symm
    | some ck =>
      obtain ⟨c, k⟩ := ck
      simp only [bestAux, hbt] at h
      obtain ⟨hfc, hcmem, hall⟩ := ih hbt
      by_cases h2 : f a ≤ k
      · rw [if_pos h2] at h
        simp only [Option.some.injEq, Prod.mk.injEq] at h
        obtain ⟨rfl, rfl⟩ := h
        refine ⟨rfl, List.mem_cons_self a t, ?_⟩
        intro x hx
        rcases List.mem_cons.mp hx with rfl | hx
        · exact le_refl _
        · exact le_trans h2 (hall x hx)
      · rw [if_neg h2] at h
        simp only [Option.some.injEq, Prod.mk.injEq] at h
        obtain ⟨rfl, rfl⟩ := h
        refine ⟨hfc, List.mem_cons_of_mem a hcmem, ?_⟩
        intro x hx
        rcases List.mem_cons.mp hx with rfl | hx
        · exact le_of_lt (not_le.mp h2)
        · exact hall x hx

theorem bestAux_first (f : α → ℚ) {l : List α} {r : α} {m : ℚ}
    (h : bestAux f l = some (r, m)) :
    l.find? (fun x => decide (f x = m)) = some r := by
  induction l generalizing r m with
  | nil => simp [bestAux] at h
  | cons a t ih =>
    cases hbt : bestAux f t with
    | none =>
      have ht : t = [] := (bestAux_eq_none_iff f).mp hbt
      subst ht
      simp only [bestAux, Option.some.injEq, Prod.mk.injEq] at h
      obtain ⟨rfl, rfl⟩ := h
      exact List.find?_cons_of_pos _ (by simp)
    | some ck =>
      obtain ⟨c, k⟩ := ck
      simp only [bestAux, hbt] at h
      by_cases h2 : f a ≤ k
      · rw [if_pos h2] at h
        simp only [Option.some.injEq, Prod.mk.injEq] at h
        obtain ⟨rfl, rfl⟩ := h
        exact List.find?_cons_of_pos _ (by simp)
      · rw [if_neg h2] at h
        simp only [Option.some.injEq, Prod.mk.injEq] at h
        obtain ⟨rfl, rfl⟩ := h
        have hne : f a ≠ k := ne_of_gt (not_le.mp h2)
        rw [List.find?_cons_of_neg _ (by simpa using hne)]
        exact ih hbt

/-! ### Deduplication preserves membership, emptiness and first matches -/

theorem mem_dedupFirst [DecidableEq β] (l : List β) (b : β) :
    b ∈ dedupFirst l ↔ b ∈ l := by
  induction l with
  | nil => simp [dedupFirst]
  | cons a t ih =>
    simp only [dedupFirst, List.mem_cons, List.mem_filter, ih,
      decide_eq_true_eq]
    by_cases hba : b = a
    · simp [hba]
    · simp [hba]

theorem dedupFirst_eq_nil_iff [DecidableEq β] {l : List β} :
    dedupFirst l = [] ↔ l = [] := by
  cases l with
  | nil => simp [dedupFirst]
  | cons a t => simp [dedupFirst]

theorem find?_filter_of_imp (p q : β → Bool) (l : List β)
    (hpq : ∀ b, p b = true → q b = true) :
    (l.filter q).find? p = l.find? p := by
  induction l with
  | nil => rfl
  | cons a t ih =>
    by_cases hq : q a = true
    · rw [List.filter_cons_of_pos hq]
      by_cases hp : p a = true
      · rw [List.find?_cons_of_pos _ hp, List.find?_cons_of_pos _ hp]
      · rw [List.find?_cons_of_neg _ hp, List.find?_cons_of_neg _ hp, ih]
    · have hp : ¬ p a = true := fun hpa => hq (hpq a hpa)
      rw [List.filter_cons_of_neg (by simpa using hq), ih,
        List.find?_cons_of_neg _ hp]

theorem find?_dedupFirst [DecidableEq β] (p : β → Bool) (l : List β) :
    (dedupFirst l).find? p = l.find? p := by
  induction l with
  | nil => rfl
  | cons a t ih =>
    by_cases hp : p a = true
    · rw [dedupFirst, List.find?_cons_of_pos _ hp, List.find?_cons_of_pos _ hp]
    · rw [dedupFirst, List.find?_cons_of_neg _ hp, List.find?_cons_of_neg _ hp,
        ← ih]
      refine find?_filter_of_imp p _ (dedupFirst t) ?_
      intro b hb
      have hba : b ≠ a := fun hba => hp (hba ▸ hb)
      simpa using hba

/-! ### Membership and distinctness for the insertion sorts -/

theorem mem_insertDate (d : Date) (l : List Date) (x : Date) :
    x ∈ insertDate d l ↔ x = d ∨ x ∈ l := by
  induction l with
  | nil => simp [insertDate]
  | cons a t ih =>
    simp only [insertDate]
    by_cases hc : (d.leb a : Bool)
    · simp [hc, List.mem_cons]
    · simp only [hc, if_neg, Bool.false_eq_true, not_false_iff, List.mem_cons,
        ih]
      tauto

theorem mem_sortDates (l : List Date) (x : Date) :
    x ∈ sortDates l ↔ x ∈ l := by
  induction l with
  | nil => simp [sortDates]
  | cons a t ih =>
    simp only [sortDates, mem_insertDate, ih, List.mem_cons]

theorem nodup_insertDate (d : Date) (l : List Date) (hd : d ∉ l)
    (hl : l.Nodup) : (insertDate d l).Nodup := by
  induction l with
  | nil => simp [insertDate]
  | cons a t ih =>
    simp only [insertDate]
    by_cases hc : (d.leb a : Bool)
    · simp only [hc, if_pos]
      exact List.nodup_cons.mpr ⟨hd, hl⟩
    · simp only [hc, Bool.false_eq_true, if_neg, not_false_iff]
      have hda : d ≠ a := fun h => hd (h ▸ List.mem_cons_self a t)
      have hdt : d ∉ t := fun h => hd (List.mem_cons_of_mem a h)
      have hat : a ∉ t := (List.nodup_cons.mp hl).1
      refine List.nodup_cons.mpr ⟨?_, ih hdt (List.nodup_cons.mp hl).2⟩
      intro hmem
      rcases (mem_insertDate d t a).mp hmem with h | h
      · exact hda h.symm
      · exact hat h

theorem nodup_sortDates (l : List Date) (hl : l.Nodup) :
    (sortDates l).Nodup := by
  induction l with
  | nil => simp [sortDates]
  | cons a t ih =>
    have hat : a ∉ t := (List.nodup_cons.mp hl).1
    refine nodup_insertDate a (sortDates t) ?_ (ih (List.nodup_cons.mp hl).2)
    exact fun h => hat ((mem_sortDates t a).mp h)

theorem nodup_dedupFirst [DecidableEq β] (l : List β) :
    (dedupFirst l).Nodup := by
  induction l with
  | nil => simp [dedupFirst]
  | cons a t ih =>
    refine List.nodup_cons.mpr ⟨?_, ih.filter _⟩
    intro hmem
    have := (List.mem_filter.mp hmem).2
    simp at this

/-! ### Swap symmetry of the area-weighted centroid -/

theorem rot1_map (f : α → β) (l : List α) :
    rot1 (l.map f) = (rot1 l).map f := by
  cases l with
  | nil => rfl
  | cons a t => simp [rot1]

theorem edges_map_swap (l : List (ℚ × ℚ)) :
    edges (l.map Prod.swap) = (edges l).map (Prod.map Prod.swap Prod.swap) := by
  unfold edges
  rw [rot1_map, List.zip_map]

theorem sum_map_neg (l : List β) (f : β → ℚ) :
    (l.map fun x => -(f x)).sum = -((l.map f).sum) := by
  induction l with
  | nil => simp
  | cons a t ih => simp [ih]; ring

theorem edgeSum_map_swap (w v : ℚ × ℚ → ℚ × ℚ → ℚ) (l : List (ℚ × ℚ))
    (hwv : ∀ p q, w p.swap q.swap = -(v p q)) :
    edgeSum w (l.map Prod.swap) = -(edgeSum v l) := by
  unfold edgeSum
  rw [edges_map_swap, List.map_map]
  have hfun : ((fun e : (ℚ × ℚ) × (ℚ × ℚ) => w e.1 e.2) ∘
      Prod.map Prod.swap Prod.swap) = fun e => -(v e.1 e.2) := by
    funext e
    exact hwv e.1 e.2
  rw [hfun, sum_map_neg]

theorem cross_swap (p q : ℚ × ℚ) : cross p.swap q.swap = -(cross p q) := by
  simp only [cross, Prod.swap, Prod.fst, Prod.snd]
  ring

theorem area2_map_swap (l : List (ℚ × ℚ)) :
    area2 (l.map Prod.swap) = -(area2 l) := by
  exact edgeSum_map_swap cross cross l cross_swap

theorem centroidNumX_map_swap (l : List (ℚ × ℚ)) :
    centroidNumX (l.map Prod.swap) = -(centroidNumY l) := by
  refine edgeSum_map_swap _ _ l ?_
  intro p q
  rw [cross_swap]
  simp only [Prod.swap, Prod.fst, Prod.snd]
  ring

theorem centroidNumY_map_swap (l : List (ℚ × ℚ)) :
    centroidNumY (l.map Prod.swap) = -(centroidNumX l) := by
  refine edgeSum_map_swap _ _ l ?_
  intro p q
  rw [cross_swap]
  simp only [Prod.swap, Prod.fst, Prod.snd]
  ring

theorem centroidXY_map_swap (l : List (ℚ × ℚ)) :
    centroidXY (l.map Prod.swap) = ((centroidXY l).2, (centroidXY l).1) := by
  unfold centroidXY
  rw [centroidNumX_map_swap, centroidNumY_map_swap, area2_map_swap]
  have h3 : (3 : ℚ) * -(area2 l) = -(3 * area2 l) := by ring
  rw [h3, neg_div_neg_eq, neg_div_neg_eq]

/-! ### Claims -/

/-- C1: for every reference point and every non-empty catalog, the
nearest-station scan returns a row whose distance to the reference point
is ≤ the distance from the reference point to every row, and hence to
every unique station coordinate in the catalog.  The theorem holds for
every distance function `dist`, in particular for the external haversine
library function the source calls. -/
theorem nearestScan_le_all_stations (dist : ℚ × ℚ → ℚ × ℚ → ℚ)
    (centroid : ℚ × ℚ) (df : List Row) (h : df ≠ []) :
    ∃ r m, nearestScan dist centroid df = some (r, m) ∧
      dist centroid r.coord = m ∧
      (∀ x ∈ df, dist centroid r.coord ≤ dist centroid x.coord) ∧
      (∀ c ∈ dedupFirst (df.map Row.coord),
        dist centroid r.coord ≤ dist centroid c) := by
  cases hbt : bestAux (fun row : Row => dist centroid row.coord) df with
  | none => exact absurd ((bestAux_eq_none_iff _).mp hbt) h
  | some rm =>
    obtain ⟨r, m⟩ := rm
    obtain ⟨hf, _, hall⟩ := bestAux_isMin _ hbt
    have hf' : dist centroid r.coord = m := hf
    refine ⟨r, m, ?_, hf', ?_, ?_⟩
    · rw [nearestScan, scanMin_eq_bestAux, hbt]
    · intro x hx
      rw [hf']
      exact hall x hx
    · intro c hc
      obtain ⟨x, hx, hxc⟩ := List.mem_map.mp ((mem_dedupFirst _ _).mp hc)
      rw [hf', ← hxc]
      exact hall x hx

/-- Witness for C1: a concrete catalog of two stations and a concrete
reference point. -/
theorem nearestScan_le_all_stations_witness :
    sampleDf ≠ [] ∧
    ∃ r m, nearestScan distSq (10, 21) sampleDf = some (r, m) ∧
      distSq (10, 21) r.coord = m ∧
      (∀ x ∈ sampleDf, distSq (10, 21) r.coord ≤ distSq (10, 21) x.coord) ∧
      (∀ c ∈ dedupFirst (sampleDf.map Row.coord),
        distSq (10, 21) r.coord ≤ distSq (10, 21) c) :=
  ⟨by decide, nearestScan_le_all_stations distSq (10, 21) sampleDf (by decide)⟩

/-- C2: when the scan returns `(r, m)`, `r` is the first row in catalog
iteration order whose distance equals the minimum `m` — the strict `<`
update keeps the earlier row on exact ties.  Determinism across repeated
runs is immediate: the scan is a pure function of its inputs. -/
theorem nearestScan_tie_first (dist : ℚ × ℚ → ℚ × ℚ → ℚ) (centroid : ℚ × ℚ)
    (df : List Row) {r : Row} {m : ℚ}
    (h : nearestScan dist centroid df = some (r, m)) :
    df.find? (fun x => decide (dist centroid x.coord = m)) = some r := by
  rw [nearestScan, scanMin_eq_bestAux] at h
  exact bestAux_first _ h

/-- Witness for C2: two stations at exactly equal distance 1 from the
reference point `(10, 21)`; the scan keeps the first, and it is the first
match in iteration order. -/
theorem nearestScan_tie_first_witness :
    nearestScan distSq (10, 21) tieDf = some (tieRowA, 1) ∧
    tieDf.find? (fun x => decide (distSq (10, 21) x.coord = 1)) =
      some tieRowA := by
  have h : nearestScan distSq (10, 21) tieDf = some (tieRowA, 1) := by
    norm_num [nearestScan, scanMin, scanStep, distSq, tieDf, tieRowA, tieRowB,
      mkRow, Row.coord]
  exact ⟨h, nearestScan_tie_first distSq (10, 21) tieDf h⟩

/-- C10: scanning every raw row with the strict `<` loop returns the same
station coordinate and the same minimum distance as scanning each unique
`(latitude, longitude)` coordinate exactly once in first-occurrence
order — duplicate rows never change the selection. -/
theorem nearestScan_unique_equiv (dist : ℚ × ℚ → ℚ × ℚ → ℚ)
    (centroid : ℚ × ℚ) (df : List Row) :
    (nearestScan dist centroid df).map (fun p => (p.1.coord, p.2)) =
      uniqueScan dist centroid df := by
  rw [nearestScan, uniqueScan, scanMin_eq_bestAux, scanMin_eq_bestAux]
  cases hbt : bestAux (fun row : Row => dist centroid row.coord) df with
  | none =>
    have hnil : df = [] := (bestAux_eq_none_iff _).mp hbt
    subst hnil
    rfl
  | some rm =>
    obtain ⟨r, m⟩ := rm
    obtain ⟨hfr, hrmem, hall⟩ := bestAux_isMin _ hbt
    have hfr' : dist centroid r.coord = m := hfr
    have hfind : df.find? (fun x => decide (dist centroid x.coord = m)) =
        some r := bestAux_first _ hbt
    cases hbu : bestAux (fun c : ℚ × ℚ => dist centroid c)
        (dedupFirst (df.map Row.coord)) with
    | none =>
      exfalso
      have hnil : dedupFirst (df.map Row.coord) = [] :=
        (bestAux_eq_none_iff _).mp hbu
      have hrc : r.coord ∈ dedupFirst (df.map Row.coord) :=
        (mem_dedupFirst _ _).mpr (List.mem_map_of_mem Row.coord hrmem)
      rw [hnil] at hrc
      exact List.not_mem_nil _ hrc
    | some ck =>
      obtain ⟨c, k⟩ := ck
      obtain ⟨hgc, hcmem, hcall⟩ := bestAux_isMin _ hbu
      have hgc' : dist centroid c = k := hgc
      have hcfind : (dedupFirst (df.map Row.coord)).find?
          (fun y => decide (dist centroid y = k)) = some c := bestAux_first _ hbu
      have hkm : k = m := by
        apply le_antisymm
        · have hrc : r.coord ∈ dedupFirst (df.map Row.coord) :=
            (mem_dedupFirst _ _).mpr (List.mem_map_of_mem Row.coord hrmem)
          have hk : k ≤ dist centroid r.coord := hcall _ hrc
          exact le_trans hk (le_of_eq hfr')
        · obtain ⟨x, hx, hxc⟩ := List.mem_map.mp ((mem_dedupFirst _ _).mp hcmem)
          have hm := hall x hx
          rw [← hgc', ← hxc]
          exact hm
      have hc : c = r.coord := by
        have e1 : (dedupFirst (df.map Row.coord)).find?
            (fun y => decide (dist centroid y = k)) =
            (df.map Row.coord).find? (fun y => decide (dist centroid y = k)) :=
          find?_dedupFirst _ _
        have e2 : (df.map Row.coord).find?
            (fun y => decide (dist centroid y = k)) =
            Option.map Row.coord
              (df.find? ((fun y => decide (dist centroid y = k)) ∘ Row.coord)) :=
          List.find?_map _ _
        have e3 : df.find? ((fun y => decide (dist centroid y = k)) ∘ Row.coord) =
            some r := by
          have heq : ((fun y => decide (dist centroid y = k)) ∘ Row.coord) =
              (fun x : Row => decide (dist centroid x.coord = k)) := rfl
          rw [heq, hkm]
          exact hfind
        have hcc := hcfind
        rw [e1, e2, e3] at hcc
        exact (Option.some.inj hcc).symm
      rw [Option.map_some']
      rw [hc, hkm]

/-- C6: in aggregated mode the extractor emits, for every date occurring
in the station's rows, exactly one entry whose level is the arithmetic
mean of the non-null level values of that date — and still an entry, with
a null level, when every value of the date is null.  The emitted dates are
pairwise distinct (one entry per date). -/
theorem plot_data_mean_per_date (rows : List StationRow) (d : Date)
    (h : some d ∈ rows.map StationRow.date) :
    ((plot_data rows).map Prod.fst).Nodup ∧
    (d, if (levelsAt rows d).filterMap id = [] then none
        else some (((levelsAt rows d).filterMap id).sum /
          (((levelsAt rows d).filterMap id).length : ℚ))) ∈ plot_data rows := by
  constructor
  · rw [plot_data, List.map_map]
    have hcomp : (Prod.fst ∘ fun d => (d, meanOpt (levelsAt rows d))) =
        @id Date := rfl
    rw [hcomp, List.map_id]
    exact nodup_sortDates _ (nodup_dedupFirst _)
  · have hd : d ∈ rows.filterMap StationRow.date := by
      rw [List.mem_filterMap]
      obtain ⟨r, hr, hrd⟩ := List.mem_map.mp h
      exact ⟨r, hr, hrd⟩
    have hmem : d ∈ sortDates (dedupFirst (rows.filterMap StationRow.date)) :=
      (mem_sortDates _ _).mpr ((mem_dedupFirst _ _).mpr hd)
    exact List.mem_map_of_mem (fun d => (d, meanOpt (levelsAt rows d))) hmem

/-- Witness for C6: the spec's own example — levels `[3.0, 5.0]` on
2020-01-01 average to `4.0`, and 2020-01-02, whose only level is null, is
still emitted with a null level. -/
theorem plot_data_mean_per_date_witness :
    (some specD1 ∈ specRows.map StationRow.date) ∧
    (some specD2 ∈ specRows.map StationRow.date) ∧
    (specD1, some (4 : ℚ)) ∈ plot_data specRows ∧
    (specD2, (none : Option ℚ)) ∈ plot_data specRows := by
  refine ⟨by decide, by decide, ?_, ?_⟩
  · have h := (plot_data_mean_per_date specRows specD1 (by decide)).2
    have e : (if (levelsAt specRows specD1).filterMap id = [] then none
        else some (((levelsAt specRows specD1).filterMap id).sum /
          (((levelsAt specRows specD1).filterMap id).length : ℚ))) =
        some (4 : ℚ) := by
      rw [if_neg (by decide)]
      norm_num [levelsAt, specRows, specD1, specD2, List.filterMap_cons]
    rw [e] at h
    exact h
  · have h := (plot_data_mean_per_date specRows specD2 (by decide)).2
    have e : (if (levelsAt specRows specD2).filterMap id = [] then none
        else some (((levelsAt specRows specD2).filterMap id).sum /
          (((levelsAt specRows specD2).filterMap id).length : ℚ))) =
        (none : Option ℚ) := by
      rw [if_pos (by decide)]
    rw [e] at h
    exact h

/-- C8: the reference point produced at line 75 — the `(y, x)` swap of the
centroid computed by the geometry library on its native
`(x = lon, y = lat)` axes — equals the area-weighted centroid of the same
polygon computed directly on vertices written in `(latitude, longitude)`
order.  The axes are swapped exactly once, at the boundary. -/
theorem referencePoint_is_latlon_centroid (lonlat : List (ℚ × ℚ)) :
    referencePoint lonlat = specReferencePoint lonlat := by
  unfold referencePoint specReferencePoint
  rw [centroidXY_map_swap]

/-- C3 amended: for fewer than 3 coordinates, polygon construction fails
inside the geometry library and the handler surfaces the generic string
`Error reading polygon: <cause>` (line 130); no `ValidationError` and no
message `at least 3 coordinates required` exist anywhere in the source. -/
theorem handleDrawing_fewPoints (dist : ℚ × ℚ → ℚ × ℚ → ℚ) (df : List Row)
    (coords : List (ℚ × ℚ)) (h : coords.length < 3) :
    handleDrawing dist df coords = Except.error (pyErrorTag ++ fewPointsMsg) := by
  unfold handleDrawing shapeCentroid
  rw [if_pos h]

/-- Witness for C3's amended claim at a concrete 2-coordinate input. -/
theorem handleDrawing_fewPoints_witness :
    ([((20 : ℚ), (10 : ℚ)), (21, 11)].length < 3) ∧
    handleDrawing distSq sampleDf [(20, 10), (21, 11)] =
      Except.error (pyErrorTag ++ fewPointsMsg) :=
  ⟨by decide, handleDrawing_fewPoints distSq sampleDf _ (by decide)⟩

/-- C3 counterexample: on a concrete 2-coordinate input the surfaced error
is the handler's generic `Error reading polygon: ...` string — which can
never equal `at least 3 coordinates required`, whatever the library's
underlying message is, because line 130 always prepends its prefix — and
no `ValidationError` class exists in src/main.py. -/
theorem two_coords_error_not_validation_message :
    handleDrawing distSq sampleDf [(20, 10), (21, 11)] =
      Except.error (pyErrorTag ++ fewPointsMsg) ∧
    pyErrorTag ++ fewPointsMsg ≠ "at least 3 coordinates required" :=
  ⟨rfl, by decide⟩

/-- C4 amended: `load_data` keeps every raw row; a row whose date failed
to parse survives with its date coerced to null (`NaT`) — it is not
dropped at ingestion. -/
theorem load_data_keeps_all_rows (rows : List Row) :
    (load_data rows).length = rows.length ∧
    (load_data rows).map (fun r => r.date) = rows.map (fun r => r.date) := by
  constructor
  · simp [load_data]
  · simp only [load_data, List.map_map]
    rfl

/-- C4 counterexample: a concrete row with an unparseable date (`NaT`)
enters the loaded dataset — the loaded frame still contains a
null-dated row, has length 1, and its dates are `[none]`, contradicting
that such rows are dropped before grouping. -/
theorem load_data_keeps_unparseable_date :
    ¬ ((load_data [badDateRow]).filter (fun r => r.date.isNone) = []) ∧
    (load_data [badDateRow]).length = 1 ∧
    (load_data [badDateRow]).map (fun r => r.date) = [none] := by
  refine ⟨by decide, by decide, by decide⟩

/-- C7 amended: with an empty catalog the scan selects no row
(`nearest_row` stays `None`), the unconditional row access at line 95 then
fails, and the handler surfaces the generic `Error reading polygon: ...`
string; neither a `NotFoundError` nor a `DataIntegrityError` exists in the
source. -/
theorem handleDrawing_empty_catalog (dist : ℚ × ℚ → ℚ × ℚ → ℚ)
    (coords : List (ℚ × ℚ)) (h : ¬ coords.length < 3) :
    handleDrawing dist [] coords = Except.error (pyErrorTag ++ noneTypeMsg) := by
  unfold handleDrawing shapeCentroid
  rw [if_neg h]
  rfl

/-- Witness for C7's amended claim at a concrete triangle. -/
theorem handleDrawing_empty_catalog_witness :
    (¬ ([((0 : ℚ), (0 : ℚ)), (0, 1), (1, 0)].length < 3)) ∧
    handleDrawing distSq [] [(0, 0), (0, 1), (1, 0)] =
      Except.error (pyErrorTag ++ noneTypeMsg) :=
  ⟨by decide, handleDrawing_empty_catalog distSq _ (by decide)⟩

/-- C7 counterexample: on an empty catalog the scan returns nothing and
the concrete query fails with the generic `Error reading polygon: ...`
error — a failure mode that is neither a `NotFoundError` nor a
`DataIntegrityError` (no such classes exist in src/main.py; moreover an
empty dataset would already crash the app at line 29, before any query). -/
theorem empty_catalog_error_not_notFound :
    nearestScan distSq (0, 0) [] = none ∧
    handleDrawing distSq [] [(0, 0), (0, 1), (1, 0)] =
      Except.error (pyErrorTag ++ noneTypeMsg) ∧
    pyErrorTag ++ noneTypeMsg ≠ "NotFoundError" ∧
    pyErrorTag ++ noneTypeMsg ≠ "DataIntegrityError" :=
  ⟨rfl, rfl, by decide, by decide⟩

/-- C9 amended: the administrative columns (`id`, `source`, derived
`year`) are dropped from both outputs, and the aggregated (plot) output
carries exactly `(date, currentlevel)`; but the raw/CSV output also keeps
`station_name`, `district_name` and `state_name` alongside `date` and
`currentlevel`. -/
theorem output_columns_exact :
    ("id" ∉ csvDataColumns ∧ "source" ∉ csvDataColumns ∧
      "year" ∉ csvDataColumns) ∧
    ("id" ∉ plotDataColumns ∧ "source" ∉ plotDataColumns ∧
      "year" ∉ plotDataColumns) ∧
    plotDataColumns = ["date", "currentlevel"] ∧
    csvDataColumns =
      ["date", "station_name", "district_name", "state_name", "currentlevel"] := by
  refine ⟨by decide, by decide, by decide, by decide⟩

/-- C9 counterexample: the frame saved for CSV download still carries
`station_name` (and the other name columns), so the raw-mode output does
not consist of `(date, level)` pairs only. -/
theorem csvData_keeps_name_columns :
    "station_name" ∈ csvDataColumns ∧
    "district_name" ∈ csvDataColumns ∧
    "state_name" ∈ csvDataColumns ∧
    csvDataColumns ≠ ["date", "currentlevel"] := by
  refine ⟨by decide, by decide, by decide, by decide⟩

end GWL
